import Mathlib

/-!
# Nautobot Go client: request, pagination and error-handling engine

A shallow embedding of `nautobot/client.go`, `nautobot/types.go`, `nautobot/sites.go` and
`nautobot/interfaces_status.go`.

Conventions of the embedding.

* A Go multi-value return `(v, err)` is a record `Ret` with the value, the error (`none` for a
  nil error) and the list of requests handed to `http.DefaultClient.Do` so far.
* A Go slice is a `List`; the nil slice is `[]`.  A Go pointer that may be nil is an `Option`.
* Go `int` values are `Int`; the code performs no arithmetic on them.
* The Go standard library and the network are not part of the repository.  Their behaviour is
  taken as a parameter (`Env`, and the JSON decoders passed to each operation); every theorem
  holds for all behaviours of these parameters.
* Writes to the log and to standard output (`log.Println`, `fmt.Println`) are not modelled.
-/

namespace Nautobot

/-! ## Dynamic values and errors -/

/-- Values of Go's `interface{}` as far as the code inspects them: the nil interface, a `string`,
an `int`, an `int64` (an integer of a type other than `int`), and any value of another dynamic
type together with its `fmt.Sprint` rendering. -/
inductive Any where
  | nil
  | string (s : String)
  | int (n : Int)
  | int64 (n : Int)
  | other (rendered : String)
  deriving DecidableEq, Repr

/-- The struct `PatchRequestError` of `client.go`; the wrapped `Err` is kept by its message. -/
structure PatchRequestError where
  StatusCode : String
  Message : String
  Err : String
  DetailNotFound : Bool
  deriving DecidableEq, Repr

/-- Go `error` values: an error known by its message (`fmt.Errorf`, `errors.New`, and the errors
of the standard library), or a `*PatchRequestError`. -/
inductive GoError where
  | text (msg : String)
  | patchRequest (e : PatchRequestError)
  deriving DecidableEq, Repr

/-- The method `(*PatchRequestError).Error`. -/
def PatchRequestError.Error (r : PatchRequestError) : String :=
  "Status Code: " ++ r.StatusCode ++ "; Message: " ++ r.Message

/-- The method `Error()` of an error value. -/
def GoError.Error : GoError → String
  | .text msg => msg
  | .patchRequest e => e.Error

/-- The struct `DetailNotFound` of `client.go`. -/
structure DetailNotFound where
  Detail : String
  deriving DecidableEq, Repr

instance : Inhabited DetailNotFound := ⟨⟨""⟩⟩

/-- The function `strconv.Itoa`: base 10, a leading minus sign for negative numbers. -/
def Itoa : Int → String
  | .ofNat n => Nat.repr n
  | .negSucc n => "-" ++ Nat.repr (n + 1)

/-- The function `fmt.Sprint` on one dynamic value. -/
def Sprint : Any → String
  | .nil => "<nil>"
  | .string s => s
  | .int n => Itoa n
  | .int64 n => Itoa n
  | .other rendered => rendered

/-! ## Client configuration (`client.go`, lines 15-87) -/

/-- The struct `OptionalFilter`. -/
structure OptionalFilter where
  Field : String
  Value : Any
  deriving DecidableEq, Repr

/-- The `http.Client` held by the configuration; only its timeout (in nanoseconds) is set. -/
structure HTTPClient where
  Timeout : Int
  deriving DecidableEq, Repr

/-- The struct `Client`. -/
structure Client where
  nautobotToken : String
  BaseURL : String
  Offset : Int
  Limit : Int
  HTTPClient : HTTPClient
  deriving DecidableEq, Repr

/-- The function `NewClient`: a zero client with a ten second timeout, then every option applied
in order. -/
def NewClient (options : List (Client → Client)) : Client :=
  options.foldl (fun client o => o client)
    { nautobotToken := "", BaseURL := "", Offset := 0, Limit := 0,
      HTTPClient := { Timeout := 10 * 1000000000 } }

/-- The option `WithToken`. -/
def WithToken (nautobotToken : String) : Client → Client :=
  fun s => { s with nautobotToken := nautobotToken }

/-- The option `WithBaseURL`. -/
def WithBaseURL (BaseURL : String) : Client → Client :=
  fun s => { s with BaseURL := BaseURL }

/-- The option `WithOffset`. -/
def WithOffset (offset : Int) : Client → Client :=
  fun s => if offset < 0 then { s with Offset := 50 } else { s with Offset := offset }

/-- The option `WithLimit`. -/
def WithLimit (limit : Int) : Client → Client :=
  fun s => if limit < 0 then { s with Limit := 50 } else { s with Limit := limit }

/-- An option produced by one of the four option constructors of `client.go`. -/
def IsClientOption (o : Client → Client) : Prop :=
  (∃ t, o = WithToken t) ∨ (∃ u, o = WithBaseURL u) ∨ (∃ n, o = WithOffset n) ∨
    (∃ n, o = WithLimit n)

/-! ## Transport (`net/http`) -/

/-- An outgoing `http.Request`: method, URL, headers and the bytes of the body, if any. -/
structure Request where
  Method : String
  URL : String
  Header : List (String × String)
  Body : Option String
  deriving DecidableEq, Repr

/-- The body stream of a response: the bytes it delivers and the read error that ends it, if
any. -/
structure Body where
  data : String
  readErr : Option GoError
  deriving DecidableEq, Repr

/-- An `http.Response` as far as the code looks at it. -/
structure Response where
  StatusCode : Int
  Status : String
  Body : Body
  deriving DecidableEq, Repr

/-- The result of a call: the returned value, the returned error, and every request handed to
`http.DefaultClient.Do` so far, oldest first. -/
structure Ret (α : Type) where
  value : α
  err : Option GoError
  sent : List Request

/-- The standard library and the network, for a payload type `P`:
`marshal` is `json.Marshal`; `parseURL` is the failure of `url.Parse` inside
`http.NewRequestWithContext`, if any; `roundTrip` is `http.DefaultClient.Do`, whose answer may
depend on the requests sent before. -/
structure Env (P : Type) where
  marshal : P → Except GoError String
  parseURL : String → Option GoError
  roundTrip : List Request → Request → Except GoError Response

/-- The function `io.ReadAll` on a response body. -/
def ReadAll (b : Body) : Except GoError String :=
  match b.readErr with
  | some e => .error e
  | none => .ok b.data

/-- Token characters of an HTTP method (`httpguts.IsTokenRune`). -/
def isTokenRune (c : Char) : Bool :=
  c.isAlphanum || "!#$%&*+-.^_|~".toList.contains c || c.toNat = 39 || c.toNat = 96

/-- The check `validMethod` of `net/http`. -/
def validMethod (method : String) : Bool :=
  decide (0 < method.length) && method.toList.all isTokenRune

/-- The function `http.NewRequestWithContext` (with a non-nil context): an empty method means
GET, the method must be a token, the URL must parse; the method is stored as given. -/
def NewRequestWithContext {P : Type} (E : Env P) (method url : String) (body : Option String) :
    Except GoError Request :=
  let method := if method = "" then "GET" else method
  if validMethod method = false then
    .error (.text ("net/http: invalid method " ++ method))
  else
    match E.parseURL url with
    | some e => .error e
    | none => .ok { Method := method, URL := url, Header := [], Body := body }

/-- The method `Header.Set`: the value of the key is replaced. -/
def headerSet (h : List (String × String)) (key value : String) : List (String × String) :=
  h.filter (fun kv => kv.1 != key) ++ [(key, value)]

/-- The function `setHeaders`. -/
def setHeaders (req : Request) (nautobotToken : String) : Request :=
  let h := headerSet req.Header "Accept" "application/json"
  let h := headerSet h "Authorization" ("Token " ++ nautobotToken)
  let h := headerSet h "Content-Type" "application/json"
  { req with Header := h }

/-! ## Generic operations (`client.go`, lines 89-327) -/

/-- The function `toJSON`. -/
def toJSON {P : Type} (E : Env P) (data : P) : Except GoError String :=
  E.marshal data

/-- The function `parseJSON`; `unmarshal s` is the value left in the target by
`json.Unmarshal(s, &r)`, starting from the zero value, and the error it returns. -/
def parseJSON {T : Type} (unmarshal : String → T × Option GoError) (s : String) :
    T × Option GoError :=
  match unmarshal s with
  | (r, some err) => (r, some err)
  | (r, none) => (r, none)

/-- The function `GetResource`. -/
def GetResource {P T : Type} [Inhabited T] (E : Env P) (unmarshal : String → T × Option GoError)
    (sent : List Request) (url nautobotToken : String) : Ret T :=
  let m : T := default
  match NewRequestWithContext E "GET" url none with
  | .error err => ⟨m, some err, sent⟩
  | .ok req =>
    let req := setHeaders req nautobotToken
    match E.roundTrip sent req with
    | .error err => ⟨m, some err, sent ++ [req]⟩
    | .ok res =>
      match ReadAll res.Body with
      | .error err => ⟨m, some err, sent ++ [req]⟩
      | .ok body =>
        if res.StatusCode ≠ 200 then
          ⟨m, some (.text ("Error while retrieving data from " ++ url ++ ". Status: " ++
            res.Status ++ ". Message: " ++ body)), sent ++ [req]⟩
        else
          let r := parseJSON unmarshal body
          ⟨r.1, r.2, sent ++ [req]⟩

/-- The struct `successResponse` of `types.go`; `Results` is the raw, undecoded fragment. -/
structure successResponse where
  Count : Int
  Next : Any
  Previous : Any
  Results : String
  deriving DecidableEq, Repr

instance : Inhabited successResponse := ⟨⟨0, .nil, .nil, ""⟩⟩

/-- The method `(*successResponse).isLastPage`. -/
def successResponse.isLastPage (res : successResponse) : Bool :=
  match res.Next with
  | .string _ => false
  | _ => true

/-- The function `GetResources`; `decodeEnvelope b` is the value left in `m` by
`json.NewDecoder(b).Decode(&m)` and the error it returns. -/
def GetResources {P : Type} (E : Env P)
    (decodeEnvelope : Body → successResponse × Option GoError)
    (sent : List Request) (url nautobotToken : String) : Ret successResponse :=
  let m : successResponse := default
  match NewRequestWithContext E "GET" url none with
  | .error err => ⟨m, some err, sent⟩
  | .ok req =>
    let req := setHeaders req nautobotToken
    match E.roundTrip sent req with
    | .error err => ⟨m, some err, sent ++ [req]⟩
    | .ok res =>
      if res.StatusCode ≠ 200 then
        ⟨m, some (.text ("Error while retrieving data from " ++ url ++ ". Status: " ++
          res.Status)), sent ++ [req]⟩
      else
        match decodeEnvelope res.Body with
        | (m, some err) => ⟨m, some err, sent ++ [req]⟩
        | (m, none) => ⟨m, none, sent ++ [req]⟩

/-- The function `Post`. -/
def Post {P T : Type} (E : Env P) (unmarshal : String → List T × Option GoError)
    (sent : List Request) (url nautobotToken : String) (data : P) : Ret (List T) :=
  let m : List T := []
  match toJSON E data with
  | .error err => ⟨[], some err, sent⟩
  | .ok b =>
    match NewRequestWithContext E "POST" url (some b) with
    | .error err => ⟨[], some err, sent⟩
    | .ok req =>
      let req := setHeaders req nautobotToken
      match E.roundTrip sent req with
      | .error err => ⟨[], some err, sent ++ [req]⟩
      | .ok res =>
        match ReadAll res.Body with
        | .error err => ⟨m, some err, sent ++ [req]⟩
        | .ok body =>
          if res.StatusCode ≠ 201 then
            ⟨[], some (.text ("Error while posting data to " ++ url ++ ". Status: " ++
              res.Status ++ ". Message: " ++ body)), sent ++ [req]⟩
          else
            match unmarshal body with
            | (m, some err) => ⟨m, some err, sent ++ [req]⟩
            | (m, none) => ⟨m, none, sent ++ [req]⟩

/-- The function `PatchResources`. -/
def PatchResources {P T : Type} (E : Env P) (unmarshal : String → List T × Option GoError)
    (sent : List Request) (url nautobotToken : String) (data : P) : Ret (List T) :=
  let m : List T := []
  match toJSON E data with
  | .error err => ⟨m, some err, sent⟩
  | .ok b =>
    match NewRequestWithContext E "Patch" url (some b) with
    | .error err => ⟨m, some err, sent⟩
    | .ok req =>
      let req := setHeaders req nautobotToken
      match E.roundTrip sent req with
      | .error err => ⟨m, some err, sent ++ [req]⟩
      | .ok res =>
        match ReadAll res.Body with
        | .error err => ⟨m, some err, sent ++ [req]⟩
        | .ok body =>
          if res.StatusCode ≠ 200 then
            ⟨m, some (.text ("Error while updating resource " ++ url ++ ". Status: " ++
              res.Status)), sent ++ [req]⟩
          else
            match unmarshal body with
            | (m, some err) => ⟨m, some err, sent ++ [req]⟩
            | (m, none) => ⟨m, none, sent ++ [req]⟩

/-- The function `PatchResource`; `unmarshalDetail s` is `json.Unmarshal(s, &detaiNotFound)`
on a zero `DetailNotFound`.  The test `if err != nil` after `res.Body.Close()` finds the nil
error of `io.ReadAll` and never fires. -/
def PatchResource {P T : Type} [Inhabited T] (E : Env P)
    (unmarshal : String → T × Option GoError)
    (unmarshalDetail : String → DetailNotFound × Option GoError)
    (sent : List Request) (url nautobotToken : String) (data : P) : Ret T :=
  let m : T := default
  match toJSON E data with
  | .error err => ⟨m, some err, sent⟩
  | .ok b =>
    match NewRequestWithContext E "Patch" url (some b) with
    | .error err => ⟨m, some err, sent⟩
    | .ok req =>
      let req := setHeaders req nautobotToken
      match E.roundTrip sent req with
      | .error err => ⟨m, some err, sent ++ [req]⟩
      | .ok res =>
        match ReadAll res.Body with
        | .error err => ⟨m, some err, sent ++ [req]⟩
        | .ok body =>
          if res.StatusCode ≠ 200 then
            let errResponse : PatchRequestError :=
              { StatusCode := res.Status, Err := "Error in response", Message := body,
                DetailNotFound := false }
            match unmarshalDetail body with
            | (_, some _) => ⟨m, some (.patchRequest errResponse), sent ++ [req]⟩
            | (detaiNotFound, none) =>
              let errResponse :=
                if detaiNotFound.Detail = "Not found." then
                  { errResponse with DetailNotFound := true }
                else errResponse
              ⟨m, some (.patchRequest errResponse), sent ++ [req]⟩
          else
            let r := parseJSON unmarshal body
            ⟨r.1, r.2, sent ++ [req]⟩

/-- The function `Delete`. -/
def Delete {P : Type} (E : Env P) (sent : List Request) (url nautobotToken : String)
    (data : P) : Ret Unit :=
  match toJSON E data with
  | .error err => ⟨(), some err, sent⟩
  | .ok b =>
    match NewRequestWithContext E "Delete" url (some b) with
    | .error err => ⟨(), some err, sent⟩
    | .ok req =>
      let req := setHeaders req nautobotToken
      match E.roundTrip sent req with
      | .error err => ⟨(), some err, sent ++ [req]⟩
      | .ok res =>
        if res.StatusCode ≠ 204 then
          ⟨(), some (.text ("Error while updating resource " ++ url ++ ". Status: " ++
            res.Status)), sent ++ [req]⟩
        else
          ⟨(), none, sent ++ [req]⟩

/-! ## Query parameters (`net/url`) -/

/-- The map type `url.Values`: each key once, with the values added under it in order. -/
abbrev Values := List (String × List String)

/-- The method `Values.Add`: the value is appended to the values of the key. -/
def Values.Add : Values → String → String → Values
  | [], key, value => [(key, [value])]
  | (k, vs) :: rest, key, value =>
    if k = key then (k, vs ++ [value]) :: rest else (k, vs) :: Values.Add rest key value

/-- The parameters held by a `url.Values`, as (key, value) pairs. -/
def Values.params (v : Values) : List (String × String) :=
  v.flatMap (fun kv => kv.2.map (fun value => (kv.1, value)))

/-! ## Resource accessors (`sites.go`, `interfaces_status.go`) -/

/-- The constant `SitesEndpoint`. -/
def SitesEndpoint : String := "api/dcim/sites"

/-- The constant `InterfacesStatusEndpoint`. -/
def InterfacesStatusEndpoint : String := "api/plugins/interfaces-telemetry/interfaces-status"

/-- How a call ends: it returns, it aborts with a run-time panic, or the page loop is still
running when the fuel of the model is used up. -/
inductive Outcome (α : Type) where
  | returned (r : α)
  | panicked
  | running
  deriving DecidableEq, Repr

/-- The end of a call together with the requests sent during it. -/
structure Run (α : Type) where
  outcome : Outcome α
  sent : List Request

/-- One turn of the loop over `filterOtions`: two independent type assertions on the value. -/
def addFilter (options : Values) (filterOp : OptionalFilter) : Values :=
  let options :=
    match filterOp.Value with
    | .string filterValueString => options.Add filterOp.Field filterValueString
    | _ => options
  match filterOp.Value with
  | .int filterValueInt => options.Add filterOp.Field (Itoa filterValueInt)
  | _ => options

/-- The loop over `filterOtions`, starting from `url.Values{}`. -/
def filterValues (filterOtions : List OptionalFilter) : Values :=
  filterOtions.foldl addFilter []

/-- The URL of the first page; `encode` is the method `Values.Encode`. -/
def firstLink (encode : Values → String) (BaseURL endpoint : String)
    (filterOtions : List OptionalFilter) : String :=
  let options := filterValues filterOtions
  let link := BaseURL ++ "/" ++ endpoint ++ "/"
  if options.length ≠ 0 then link ++ "?" ++ encode options else link

/-- The loop `for lastPage != true`, with its variables `lastPage`, `link` and the accumulated
pointers as state.  Every test of the loop condition uses one unit of fuel.  `decodePage raw` is
`json.Unmarshal(raw, &pageResults)` on a nil slice of record pointers. -/
def pageLoop {P R : Type} (E : Env P)
    (decodeEnvelope : Body → successResponse × Option GoError)
    (decodePage : String → List (Option R) × Option GoError) (nautobotToken : String) :
    Nat → Bool → String → List (Option R) → List Request →
      Run (List (Option R) × Option GoError)
  | 0, _, _, _, sent => ⟨.running, sent⟩
  | fuel + 1, lastPage, link, acc, sent =>
    if lastPage = true then ⟨.returned (acc, none), sent⟩
    else
      let r := GetResources E decodeEnvelope sent link nautobotToken
      match r.err with
      | some err => ⟨.returned ([], some err), r.sent⟩
      | none =>
        match decodePage r.value.Results with
        | (_, some err) => ⟨.returned ([], some err), r.sent⟩
        | (pageResults, none) =>
          pageLoop E decodeEnvelope decodePage nautobotToken fuel
            r.value.isLastPage (Sprint r.value.Next) (acc ++ pageResults) r.sent

/-- The loop that copies each record out of its pointer, appending to `out`; reading through
a nil pointer panics. -/
def toValues {R : Type} : List (Option R) → List R → Outcome (List R)
  | [], out => .returned out
  | none :: _, _ => .panicked
  | some v :: rest, out => toValues rest (out ++ [v])

/-- The body that `GetSites` and `GetInterfacesStatus` share word for word, for the endpoint
constant and the record type of each. -/
def getAll {P R : Type} (E : Env P) (encode : Values → String)
    (decodeEnvelope : Body → successResponse × Option GoError)
    (decodePage : String → List (Option R) × Option GoError)
    (endpoint : String) (fuel : Nat) (c : Client) (filterOtions : List OptionalFilter) :
    Run (List R × Option GoError) :=
  let link := firstLink encode c.BaseURL endpoint filterOtions
  let r := pageLoop E decodeEnvelope decodePage c.nautobotToken fuel false link [] []
  match r.outcome with
  | .running => ⟨.running, r.sent⟩
  | .panicked => ⟨.panicked, r.sent⟩
  | .returned (_, some err) => ⟨.returned ([], some err), r.sent⟩
  | .returned (ptrs, none) =>
    match toValues ptrs [] with
    | .returned values => ⟨.returned (values, none), r.sent⟩
    | _ => ⟨.panicked, r.sent⟩

/-- The method `(*Client).GetSites`, for a record type `Site`. -/
def GetSites {P Site : Type} (E : Env P) (encode : Values → String)
    (decodeEnvelope : Body → successResponse × Option GoError)
    (decodePage : String → List (Option Site) × Option GoError)
    (fuel : Nat) (c : Client) (filterOtions : List OptionalFilter) :
    Run (List Site × Option GoError) :=
  getAll E encode decodeEnvelope decodePage SitesEndpoint fuel c filterOtions

/-- The method `(*Client).GetInterfacesStatus`, for a record type `InterfacesStatus`. -/
def GetInterfacesStatus {P InterfacesStatus : Type} (E : Env P) (encode : Values → String)
    (decodeEnvelope : Body → successResponse × Option GoError)
    (decodePage : String → List (Option InterfacesStatus) × Option GoError)
    (fuel : Nat) (c : Client) (filterOtions : List OptionalFilter) :
    Run (List InterfacesStatus × Option GoError) :=
  getAll E encode decodeEnvelope decodePage InterfacesStatusEndpoint fuel c filterOtions

/-! ## Vocabulary of the statements -/

/-- The text `s` occurs in the text `t`. -/
def Occurs (s t : String) : Prop := s.data <:+: t.data

instance (s t : String) : Decidable (Occurs s t) :=
  inferInstanceAs (Decidable (s.data <:+: t.data))

/-- The value of a decimal digit character. -/
def digitValue (c : Char) : Nat := c.toNat - 48

/-- The number that a list of decimal digits denotes, most significant digit first. -/
def readDigits (cs : List Char) : Nat := cs.foldl (fun a c => 10 * a + digitValue c) 0

/-- A base 10 numeral without sign: one or more digits, no leading zero except for zero. -/
def isNumeral (cs : List Char) : Bool :=
  !cs.isEmpty && cs.all Char.isDigit && (cs.head? != some '0' || cs.length == 1)

/-- The integer that a text denotes in base 10: a numeral, or a minus sign followed by a
numeral other than zero; any other text denotes nothing. -/
def readDecimal (s : String) : Option Int :=
  match s.data with
  | '-' :: cs =>
    if isNumeral cs && readDigits cs != 0 then some (-(readDigits cs : Int)) else none
  | cs => if isNumeral cs then some (readDigits cs : Int) else none

/-- The query parameter that a filter entry stands for: a `string` value as it is, an `int`
value in base 10, nothing for a value of another dynamic type. -/
def filterParam (f : OptionalFilter) : Option (String × String) :=
  match f.Value with
  | .string s => some (f.Field, s)
  | .int n => some (f.Field, Itoa n)
  | _ => none

/-- The query parameter of a filter entry when every integer value counts, whatever its
integer type: a string value as it is, an integer value in base 10, nothing otherwise. -/
def filterParamAnyInteger (f : OptionalFilter) : Option (String × String) :=
  match f.Value with
  | .string s => some (f.Field, s)
  | .int n => some (f.Field, Itoa n)
  | .int64 n => some (f.Field, Itoa n)
  | _ => none

/-- The request that `GetResources` builds for a URL and a token. -/
def getRequest (url nautobotToken : String) : Request :=
  setHeaders { Method := "GET", URL := url, Header := [], Body := none } nautobotToken

/-- The two collection accessors of the repository. -/
inductive Accessor where
  | sites
  | interfacesStatus
  deriving DecidableEq, Repr

/-- The endpoint constant that an accessor uses. -/
def Accessor.endpoint : Accessor → String
  | .sites => SitesEndpoint
  | .interfacesStatus => InterfacesStatusEndpoint

/-- A call of `GetSites` or of `GetInterfacesStatus`. -/
def Accessor.call {P R : Type} (a : Accessor) (E : Env P) (encode : Values → String)
    (decodeEnvelope : Body → successResponse × Option GoError)
    (decodePage : String → List (Option R) × Option GoError)
    (fuel : Nat) (c : Client) (filterOtions : List OptionalFilter) :
    Run (List R × Option GoError) :=
  match a with
  | .sites => GetSites E encode decodeEnvelope decodePage fuel c filterOtions
  | .interfacesStatus =>
    GetInterfacesStatus E encode decodeEnvelope decodePage fuel c filterOtions

/-- A page of a paginated collection: the URL it is served at, its envelope, and the record
pointers that its `results` fragment decodes to (a JSON null decodes to a nil pointer). -/
structure Page (R : Type) where
  url : String
  response : successResponse
  items : List (Option R)

/-- The page is fetched and decoded: after the requests `sent`, `GetResources` on the URL of the
page returns its envelope and no error, and the `results` fragment decodes to its items. -/
def Fetched {P R : Type} (E : Env P) (decodeEnvelope : Body → successResponse × Option GoError)
    (decodePage : String → List (Option R) × Option GoError) (nautobotToken : String)
    (sent : List Request) (p : Page R) : Prop :=
  (GetResources E decodeEnvelope sent p.url nautobotToken).err = none ∧
  (GetResources E decodeEnvelope sent p.url nautobotToken).value = p.response ∧
  decodePage p.response.Results = (p.items, none)

/-- Every page of the list is fetched and decoded when the pages are requested one after the
other, starting after the requests `sent`. -/
def Served {P R : Type} (E : Env P) (decodeEnvelope : Body → successResponse × Option GoError)
    (decodePage : String → List (Option R) × Option GoError) (nautobotToken : String) :
    List Request → List (Page R) → Prop
  | _, [] => True
  | sent, p :: rest =>
    Fetched E decodeEnvelope decodePage nautobotToken sent p ∧
    Served E decodeEnvelope decodePage nautobotToken
      (sent ++ [getRequest p.url nautobotToken]) rest

/-- The pages follow one another from the URL `first`: the first page is served at `first`, the
`next` cursor of each page is a string, the URL of the page after it, and the cursor of the last
page is the string `final` (which is `first` when there is no page). -/
def Chain {R : Type} : String → List (Page R) → String → Prop
  | first, [], final => first = final
  | first, p :: rest, final =>
    p.url = first ∧ ∃ next, p.response.Next = .string next ∧ Chain next rest final

/-! ## Concrete networks and decoders for the worked examples -/

/-- A network that accepts every payload and URL and answers every request with one response. -/
def answering (res : Response) : Env Unit :=
  { marshal := fun _ => .ok "[]", parseURL := fun _ => none, roundTrip := fun _ _ => .ok res }

/-- A decoder of `DetailNotFound` that knows the body of the not-found answer only. -/
def detailOfNotFound (s : String) : DetailNotFound × Option GoError :=
  if s = "\x7b\"detail\":\"Not found.\"\x7d" then (⟨"Not found."⟩, none)
  else (⟨""⟩, some (.text "invalid character"))

/-- A decoder that rejects every input. -/
def rejecting {T : Type} [Inhabited T] (_ : String) : T × Option GoError :=
  (default, some (.text "unexpected end of JSON input"))

/-- The `results` fragment of a first page with two records. -/
def fragmentTwo : String := "[\x7b\"name\":\"ams\"\x7d,\x7b\"name\":\"ber\"\x7d]"

/-- The `results` fragment of a last page with one record. -/
def fragmentOne : String := "[\x7b\"name\":\"cdg\"\x7d]"

/-- The `results` fragment of a page with a record and a JSON null. -/
def fragmentRecordNull : String := "[\x7b\"name\":\"ams\"\x7d,null]"

/-- The `results` fragment of a page whose only element is a JSON null. -/
def fragmentNull : String := "[null]"

/-- The body of a first page with two records, pointing to a second page. -/
def bodyFirst : String :=
  "\x7b\"count\":3,\"next\":\"http://nb/page2\",\"previous\":null,\"results\":[\x7b\"name\":\"ams\"\x7d,\x7b\"name\":\"ber\"\x7d]\x7d"

/-- The body of a last page with one record. -/
def bodyLast : String :=
  "\x7b\"count\":3,\"next\":null,\"previous\":\"http://nb/api/dcim/sites/\",\"results\":[\x7b\"name\":\"cdg\"\x7d]\x7d"

/-- The body of a first page with a record and a JSON null, pointing to a second page. -/
def bodyFirstNull : String :=
  "\x7b\"count\":3,\"next\":\"http://nb/page2\",\"previous\":null,\"results\":[\x7b\"name\":\"ams\"\x7d,null]\x7d"

/-- The body of a single page whose `results` array is `[null]`. -/
def bodyNull : String :=
  "\x7b\"count\":1,\"next\":null,\"previous\":null,\"results\":[null]\x7d"

/-- The envelope decoder on the four example bodies; anything else is rejected. -/
def envelopeOf (b : Body) : successResponse × Option GoError :=
  if b.data = bodyFirst then (⟨3, .string "http://nb/page2", .nil, fragmentTwo⟩, none)
  else if b.data = bodyLast then
    (⟨3, .nil, .string "http://nb/api/dcim/sites/", fragmentOne⟩, none)
  else if b.data = bodyFirstNull then
    (⟨3, .string "http://nb/page2", .nil, fragmentRecordNull⟩, none)
  else if b.data = bodyNull then (⟨1, .nil, .nil, fragmentNull⟩, none)
  else (default, some (.text "invalid character"))

/-- The decoder of a `results` fragment into record pointers on the four example fragments,
a record being known by its name; a JSON null gives a nil pointer. -/
def recordsOf (raw : String) : List (Option String) × Option GoError :=
  if raw = fragmentTwo then ([some "ams", some "ber"], none)
  else if raw = fragmentOne then ([some "cdg"], none)
  else if raw = fragmentRecordNull then ([some "ams", none], none)
  else if raw = fragmentNull then ([none], none)
  else ([], some (.text "unexpected end of JSON input"))

/-- A network that answers a request for `http://nb/page2` with `second` and any other request
with status 200 and the body `first`. -/
def twoPageNet (first : String) (second : Response) : Env Unit :=
  { marshal := fun _ => .ok "[]", parseURL := fun _ => none,
    roundTrip := fun _ req =>
      if req.URL = "http://nb/page2" then .ok second
      else .ok ⟨200, "200 OK", ⟨first, none⟩⟩ }

/-- The first example page: two records, and a cursor to the second page. -/
def pageFirst : Page String :=
  ⟨"http://nb/api/dcim/sites/", ⟨3, .string "http://nb/page2", .nil, fragmentTwo⟩,
    [some "ams", some "ber"]⟩

/-- The last example page: one record, and no cursor. -/
def pageLast : Page String :=
  ⟨"http://nb/page2", ⟨3, .nil, .string "http://nb/api/dcim/sites/", fragmentOne⟩, [some "cdg"]⟩

/-- A first page whose `results` array holds a record and a JSON null. -/
def pageFirstNull : Page String :=
  ⟨"http://nb/api/dcim/sites/", ⟨3, .string "http://nb/page2", .nil, fragmentRecordNull⟩,
    [some "ams", none]⟩

/-- A client for the base URL `http://nb`. -/
def exampleClient : Client := NewClient [WithBaseURL "http://nb", WithToken "tok"]

/-! ## Lemmas -/

theorem occurs_end (a s : String) : Occurs s (a ++ s) := by
  unfold Occurs
  exact ⟨a.data, [], by simp [String.data_append]⟩

theorem occurs_append_right {s t : String} (u : String) (h : Occurs s t) : Occurs s (t ++ u) := by
  unfold Occurs at *
  obtain ⟨a, b, hab⟩ := h
  exact ⟨a, b ++ u.data, by simp [String.data_append, ← hab]⟩

theorem validMethod_POST : validMethod "POST" = true := by decide

theorem validMethod_Patch : validMethod "Patch" = true := by decide

theorem validMethod_Delete : validMethod "Delete" = true := by decide

theorem validMethod_GET : validMethod "GET" = true := by decide

theorem newRequest_GET {P : Type} (E : Env P) (url : String) (body : Option String)
    (hu : E.parseURL url = none) :
    NewRequestWithContext E "GET" url body = .ok ⟨"GET", url, [], body⟩ := by
  simp [NewRequestWithContext, validMethod_GET, hu]

theorem newRequest_POST {P : Type} (E : Env P) (url : String) (body : Option String)
    (hu : E.parseURL url = none) :
    NewRequestWithContext E "POST" url body = .ok ⟨"POST", url, [], body⟩ := by
  simp [NewRequestWithContext, validMethod_POST, hu]

theorem newRequest_Patch {P : Type} (E : Env P) (url : String) (body : Option String)
    (hu : E.parseURL url = none) :
    NewRequestWithContext E "Patch" url body = .ok ⟨"Patch", url, [], body⟩ := by
  simp [NewRequestWithContext, validMethod_Patch, hu]

theorem newRequest_Delete {P : Type} (E : Env P) (url : String) (body : Option String)
    (hu : E.parseURL url = none) :
    NewRequestWithContext E "Delete" url body = .ok ⟨"Delete", url, [], body⟩ := by
  simp [NewRequestWithContext, validMethod_Delete, hu]

theorem newRequest_method {P : Type} (E : Env P) (method url : String) (body : Option String)
    (req : Request) (hne : method ≠ "")
    (h : NewRequestWithContext E method url body = .ok req) : req.Method = method := by
  unfold NewRequestWithContext at h
  simp only [hne, if_false] at h
  split at h
  · simp at h
  · split at h
    · simp at h
    · simp only [Except.ok.injEq] at h
      rw [← h]

theorem option_keeps_nonneg (o : Client → Client) (h : IsClientOption o) (s : Client)
    (hs : 0 ≤ s.Offset ∧ 0 ≤ s.Limit) : 0 ≤ (o s).Offset ∧ 0 ≤ (o s).Limit := by
  rcases h with ⟨t, rfl⟩ | ⟨u, rfl⟩ | ⟨n, rfl⟩ | ⟨n, rfl⟩
  · exact hs
  · exact hs
  · unfold WithOffset
    split
    · exact ⟨by simp, hs.2⟩
    · exact ⟨by simpa using (show 0 ≤ n by omega), hs.2⟩
  · unfold WithLimit
    split
    · exact ⟨hs.1, by simp⟩
    · exact ⟨hs.1, by simpa using (show 0 ≤ n by omega)⟩

theorem foldl_options_nonneg (options : List (Client → Client))
    (h : ∀ o ∈ options, IsClientOption o) (s : Client) (hs : 0 ≤ s.Offset ∧ 0 ≤ s.Limit) :
    0 ≤ (options.foldl (fun client o => o client) s).Offset ∧
      0 ≤ (options.foldl (fun client o => o client) s).Limit := by
  induction options generalizing s with
  | nil => exact hs
  | cons o rest ih =>
    simp only [List.foldl_cons]
    apply ih
    · intro o2 ho2
      exact h o2 (List.mem_cons_of_mem _ ho2)
    · exact option_keeps_nonneg o (h o (List.mem_cons_self _ _)) s hs

theorem call_eq_getAll {P R : Type} (a : Accessor) (E : Env P) (encode : Values → String)
    (decodeEnvelope : Body → successResponse × Option GoError)
    (decodePage : String → List (Option R) × Option GoError)
    (fuel : Nat) (c : Client) (filterOtions : List OptionalFilter) :
    a.call E encode decodeEnvelope decodePage fuel c filterOtions =
      getAll E encode decodeEnvelope decodePage a.endpoint fuel c filterOtions := by
  cases a <;> rfl

theorem getAll_sent {P R : Type} (E : Env P) (encode : Values → String)
    (decodeEnvelope : Body → successResponse × Option GoError)
    (decodePage : String → List (Option R) × Option GoError)
    (endpoint : String) (fuel : Nat) (c : Client) (filterOtions : List OptionalFilter) :
    (getAll E encode decodeEnvelope decodePage endpoint fuel c filterOtions).sent =
      (pageLoop E decodeEnvelope decodePage c.nautobotToken fuel false
        (firstLink encode c.BaseURL endpoint filterOtions) [] []).sent := by
  unfold getAll
  dsimp only
  repeat' split
  all_goals rfl

/-! ## Client construction -/

/-- C6: `WithOffset n` sets `Offset` to 50 for a negative `n` and to `n` otherwise, `WithLimit n`
does the same for `Limit`, and a client built by `NewClient` from any list of the four options
has a non-negative `Offset` and a non-negative `Limit`. -/
theorem newClient_offset_limit_nonneg (n : Int) (s : Client) (options : List (Client → Client))
    (h : ∀ o ∈ options, IsClientOption o) :
    (WithOffset n s).Offset = (if n < 0 then 50 else n) ∧
    (WithLimit n s).Limit = (if n < 0 then 50 else n) ∧
    0 ≤ (NewClient options).Offset ∧ 0 ≤ (NewClient options).Limit := by
  refine ⟨?_, ?_, ?_⟩
  · unfold WithOffset
    split <;> rfl
  · unfold WithLimit
    split <;> rfl
  · exact foldl_options_nonneg options h _ ⟨by decide, by decide⟩

/-- Witness of C6: the options `WithOffset (-3)`, `WithLimit 7`, `WithToken`, `WithBaseURL`. -/
theorem newClient_offset_limit_nonneg_witness :
    (∀ o ∈ [WithOffset (-3), WithLimit 7, WithToken "t", WithBaseURL "http://nb"],
        IsClientOption o) ∧
    (WithOffset (-3) (NewClient [])).Offset = (if (-3 : Int) < 0 then 50 else -3) ∧
    (WithLimit (-3) (NewClient [])).Limit = (if (-3 : Int) < 0 then 50 else -3) ∧
    0 ≤ (NewClient [WithOffset (-3), WithLimit 7, WithToken "t", WithBaseURL "http://nb"]).Offset ∧
    0 ≤ (NewClient [WithOffset (-3), WithLimit 7, WithToken "t", WithBaseURL "http://nb"]).Limit :=
  have hopts : ∀ o ∈ [WithOffset (-3), WithLimit 7, WithToken "t", WithBaseURL "http://nb"],
      IsClientOption o := by
    intro o ho
    simp only [List.mem_cons, List.mem_singleton, List.not_mem_nil, or_false] at ho
    rcases ho with rfl | rfl | rfl | rfl
    · exact Or.inr (Or.inr (Or.inl ⟨-3, rfl⟩))
    · exact Or.inr (Or.inr (Or.inr ⟨7, rfl⟩))
    · exact Or.inl ⟨"t", rfl⟩
    · exact Or.inr (Or.inl ⟨"http://nb", rfl⟩)
  ⟨hopts, newClient_offset_limit_nonneg (-3) (NewClient []) _ hopts⟩

/-! ## Status handling of the mutating operations -/

/-- C4: when the response to `PatchResource` has a status code other than 200, the operation
returns the zero value and a `PatchRequestError` carrying the status text and the raw body; the
flag `DetailNotFound` is set when the body decodes with `detail` equal to "Not found.", and is
unset when the body fails to decode (the decode error is dropped) or decodes with another
`detail`; the text of the error contains the raw body. -/
theorem patchResource_not_200 {P T : Type} [Inhabited T] (E : Env P)
    (unmarshal : String → T × Option GoError)
    (unmarshalDetail : String → DetailNotFound × Option GoError)
    (sent : List Request) (url nautobotToken : String) (data : P)
    (b : String) (res : Response) (body : String)
    (hm : E.marshal data = .ok b) (hu : E.parseURL url = none)
    (hr : E.roundTrip sent (setHeaders ⟨"Patch", url, [], some b⟩ nautobotToken) = .ok res)
    (hb : ReadAll res.Body = .ok body) (hs : res.StatusCode ≠ 200) :
    (PatchResource E unmarshal unmarshalDetail sent url nautobotToken data).value = default ∧
    ∃ e : PatchRequestError,
      (PatchResource E unmarshal unmarshalDetail sent url nautobotToken data).err =
        some (.patchRequest e) ∧
      e.StatusCode = res.Status ∧ e.Message = body ∧
      (∀ d, unmarshalDetail body = (d, none) → d.Detail = "Not found." →
        e.DetailNotFound = true) ∧
      (∀ d, unmarshalDetail body = (d, none) → d.Detail ≠ "Not found." →
        e.DetailNotFound = false) ∧
      (∀ d err, unmarshalDetail body = (d, some err) →
        e = ⟨res.Status, body, "Error in response", false⟩) ∧
      Occurs body (GoError.Error (.patchRequest e)) := by
  have hreq := newRequest_Patch E url (some b) hu
  rcases hd : unmarshalDetail body with ⟨d, _ | err⟩
  · by_cases hdet : d.Detail = "Not found."
    · refine ⟨?_, ⟨res.Status, body, "Error in response", true⟩, ?_, rfl, rfl, ?_, ?_, ?_, ?_⟩
      · simp [PatchResource, toJSON, hm, hreq, hr, hb, hs, hd]
      · simp [PatchResource, toJSON, hm, hreq, hr, hb, hs, hd, hdet]
      · intro _ _ _
        rfl
      · intro d2 h2 hne
        simp only [Prod.mk.injEq, and_true] at h2
        exact absurd (h2 ▸ hdet) hne
      · intro d2 err h2
        simp at h2
      · exact occurs_end _ _
    · refine ⟨?_, ⟨res.Status, body, "Error in response", false⟩, ?_, rfl, rfl, ?_, ?_, ?_, ?_⟩
      · simp [PatchResource, toJSON, hm, hreq, hr, hb, hs, hd]
      · simp [PatchResource, toJSON, hm, hreq, hr, hb, hs, hd, hdet]
      · intro d2 h2 heq
        simp only [Prod.mk.injEq, and_true] at h2
        exact absurd (h2 ▸ heq) hdet
      · intro _ _ _
        rfl
      · intro _ _ _
        rfl
      · exact occurs_end _ _
  · refine ⟨?_, ⟨res.Status, body, "Error in response", false⟩, ?_, rfl, rfl, ?_, ?_, ?_, ?_⟩
    · simp [PatchResource, toJSON, hm, hreq, hr, hb, hs, hd]
    · simp [PatchResource, toJSON, hm, hreq, hr, hb, hs, hd]
    · intro d2 h2
      simp at h2
    · intro _ _ _
      rfl
    · intro _ _ _
      rfl
    · exact occurs_end _ _

/-- Witness of C4: status 404 with the body of the not-found answer. -/
theorem patchResource_not_200_witness :
    (PatchResource (T := Nat) (answering ⟨404, "404 Not Found",
        ⟨"\x7b\"detail\":\"Not found.\"\x7d", none⟩⟩) rejecting detailOfNotFound [] "http://nb/x/"
        "tok" ()).value = default ∧
    ∃ e : PatchRequestError,
      (PatchResource (T := Nat) (answering ⟨404, "404 Not Found",
        ⟨"\x7b\"detail\":\"Not found.\"\x7d", none⟩⟩) rejecting detailOfNotFound [] "http://nb/x/"
        "tok" ()).err = some (.patchRequest e) ∧
      e.StatusCode = "404 Not Found" ∧ e.Message = "\x7b\"detail\":\"Not found.\"\x7d" ∧
      (∀ d, detailOfNotFound "\x7b\"detail\":\"Not found.\"\x7d" = (d, none) →
        d.Detail = "Not found." → e.DetailNotFound = true) ∧
      (∀ d, detailOfNotFound "\x7b\"detail\":\"Not found.\"\x7d" = (d, none) →
        d.Detail ≠ "Not found." → e.DetailNotFound = false) ∧
      (∀ d err, detailOfNotFound "\x7b\"detail\":\"Not found.\"\x7d" = (d, some err) →
        e = ⟨"404 Not Found", "\x7b\"detail\":\"Not found.\"\x7d", "Error in response", false⟩) ∧
      Occurs "\x7b\"detail\":\"Not found.\"\x7d" (GoError.Error (.patchRequest e)) :=
  patchResource_not_200 (T := Nat) (answering ⟨404, "404 Not Found",
    ⟨"\x7b\"detail\":\"Not found.\"\x7d", none⟩⟩) rejecting detailOfNotFound [] "http://nb/x/"
    "tok" () "[]" ⟨404, "404 Not Found", ⟨"\x7b\"detail\":\"Not found.\"\x7d", none⟩⟩
    "\x7b\"detail\":\"Not found.\"\x7d" rfl rfl rfl rfl (by decide)


/-- C7: when the response to `Post` has a status code other than 201, `Post` returns the nil
slice and an error whose message contains the URL, the status text and the raw body; the result
is the same whatever the decoder of the body would do, so the body is not decoded. -/
theorem post_not_201 {P T : Type} (E : Env P) (unmarshal : String → List T × Option GoError)
    (sent : List Request) (url nautobotToken : String) (data : P)
    (b : String) (res : Response) (body : String)
    (hm : E.marshal data = .ok b) (hu : E.parseURL url = none)
    (hr : E.roundTrip sent (setHeaders ⟨"POST", url, [], some b⟩ nautobotToken) = .ok res)
    (hb : ReadAll res.Body = .ok body) (hs : res.StatusCode ≠ 201) :
    (Post E unmarshal sent url nautobotToken data).value = [] ∧
    (∃ msg, (Post E unmarshal sent url nautobotToken data).err = some (.text msg) ∧
      Occurs url msg ∧ Occurs res.Status msg ∧ Occurs body msg) ∧
    ∀ unmarshal2 : String → List T × Option GoError,
      Post E unmarshal2 sent url nautobotToken data =
        Post E unmarshal sent url nautobotToken data := by
  have hreq := newRequest_POST E url (some b) hu
  refine ⟨?_, ⟨"Error while posting data to " ++ url ++ ". Status: " ++ res.Status ++
    ". Message: " ++ body, ?_, ?_, ?_, ?_⟩, ?_⟩
  · simp [Post, toJSON, hm, hreq, hr, hb, hs]
  · simp [Post, toJSON, hm, hreq, hr, hb, hs]
  · exact occurs_append_right _ (occurs_append_right _ (occurs_append_right _
      (occurs_append_right _ (occurs_end _ _))))
  · exact occurs_append_right _ (occurs_append_right _ (occurs_end _ _))
  · exact occurs_end _ _
  · intro unmarshal2
    simp [Post, toJSON, hm, hreq, hr, hb, hs]

/-- Witness of C7: a create call answered with status 200. -/
theorem post_not_201_witness :
    (Post (T := Nat) (answering ⟨200, "200 OK", ⟨"[]", none⟩⟩) (fun _ => ([7], none)) []
      "http://nb/api/dcim/sites/" "tok" ()).value = [] ∧
    (∃ msg, (Post (T := Nat) (answering ⟨200, "200 OK", ⟨"[]", none⟩⟩) (fun _ => ([7], none)) []
        "http://nb/api/dcim/sites/" "tok" ()).err = some (.text msg) ∧
      Occurs "http://nb/api/dcim/sites/" msg ∧ Occurs "200 OK" msg ∧ Occurs "[]" msg) ∧
    ∀ unmarshal2 : String → List Nat × Option GoError,
      Post (answering ⟨200, "200 OK", ⟨"[]", none⟩⟩) unmarshal2 []
        "http://nb/api/dcim/sites/" "tok" () =
      Post (answering ⟨200, "200 OK", ⟨"[]", none⟩⟩) (fun _ => ([7], none)) []
        "http://nb/api/dcim/sites/" "tok" () :=
  post_not_201 (T := Nat) (answering ⟨200, "200 OK", ⟨"[]", none⟩⟩) (fun _ => ([7], none)) []
    "http://nb/api/dcim/sites/" "tok" () "[]" ⟨200, "200 OK", ⟨"[]", none⟩⟩ "[]"
    rfl rfl rfl rfl (by decide)

/-- C8: when the request of `Delete` is built and sent, `Delete` returns no error exactly when
the status code is 204; for any other status code the error message contains the URL and the
status text; in both cases the result is a function of the status code and the status text
alone, the body of the response is not read. -/
theorem delete_status {P : Type} (E : Env P) (sent : List Request)
    (url nautobotToken : String) (data : P) (b : String) (res : Response)
    (hm : E.marshal data = .ok b) (hu : E.parseURL url = none)
    (hr : E.roundTrip sent (setHeaders ⟨"Delete", url, [], some b⟩ nautobotToken) = .ok res) :
    ((Delete E sent url nautobotToken data).err = none ↔ res.StatusCode = 204) ∧
    (res.StatusCode ≠ 204 →
      ∃ msg, (Delete E sent url nautobotToken data).err = some (.text msg) ∧
        Occurs url msg ∧ Occurs res.Status msg) ∧
    (Delete E sent url nautobotToken data).err =
      (if res.StatusCode = 204 then none
       else some (.text ("Error while updating resource " ++ url ++ ". Status: " ++
         res.Status))) := by
  have hreq := newRequest_Delete E url (some b) hu
  have hval : (Delete E sent url nautobotToken data).err =
      (if res.StatusCode = 204 then none
       else some (.text ("Error while updating resource " ++ url ++ ". Status: " ++
         res.Status))) := by
    by_cases hs : res.StatusCode = 204 <;> simp [Delete, toJSON, hm, hreq, hr, hs]
  refine ⟨?_, ?_, hval⟩
  · rw [hval]
    by_cases hs : res.StatusCode = 204 <;> simp [hs]
  · intro hs
    refine ⟨_, by rw [hval, if_neg hs], ?_, ?_⟩
    · exact occurs_append_right _ (occurs_append_right _ (occurs_end _ _))
    · exact occurs_end _ _

/-- Witness of C8: a delete call answered with status 200. -/
theorem delete_status_witness :
    ((Delete (answering ⟨200, "200 OK", ⟨"", none⟩⟩) [] "http://nb/x/" "tok" ()).err = none ↔
      (200 : Int) = 204) ∧
    ((200 : Int) ≠ 204 →
      ∃ msg, (Delete (answering ⟨200, "200 OK", ⟨"", none⟩⟩) [] "http://nb/x/" "tok" ()).err =
          some (.text msg) ∧
        Occurs "http://nb/x/" msg ∧ Occurs "200 OK" msg) ∧
    (Delete (answering ⟨200, "200 OK", ⟨"", none⟩⟩) [] "http://nb/x/" "tok" ()).err =
      (if (200 : Int) = 204 then none
       else some (.text ("Error while updating resource " ++ "http://nb/x/" ++ ". Status: " ++
         "200 OK"))) :=
  delete_status (answering ⟨200, "200 OK", ⟨"", none⟩⟩) [] "http://nb/x/" "tok" () "[]"
    ⟨200, "200 OK", ⟨"", none⟩⟩ rfl rfl rfl

/-! ## HTTP methods -/

/-- C10, evaluated: with every payload and URL accepted, `GetResource` and `GetResources` send
a request with method GET and `Post` one with method POST, but `PatchResource` and
`PatchResources` send the method `Patch` and `Delete` sends the method `Delete`, which are not
the tokens PATCH and DELETE. -/
theorem request_methods_sent :
    ((GetResource (T := Nat) (answering ⟨200, "200 OK", ⟨"1", none⟩⟩) rejecting []
      "http://nb/x/" "tok").sent.map (fun r => r.Method) = ["GET"]) ∧
    ((GetResources (answering ⟨200, "200 OK", ⟨"1", none⟩⟩) (fun _ => (default, none)) []
      "http://nb/x/" "tok").sent.map (fun r => r.Method) = ["GET"]) ∧
    ((Post (T := Nat) (answering ⟨200, "200 OK", ⟨"1", none⟩⟩) rejecting []
      "http://nb/x/" "tok" ()).sent.map (fun r => r.Method) = ["POST"]) ∧
    ((PatchResource (T := Nat) (answering ⟨200, "200 OK", ⟨"1", none⟩⟩) rejecting rejecting []
      "http://nb/x/" "tok" ()).sent.map (fun r => r.Method) = ["Patch"]) ∧
    ((PatchResources (T := Nat) (answering ⟨200, "200 OK", ⟨"1", none⟩⟩) rejecting []
      "http://nb/x/" "tok" ()).sent.map (fun r => r.Method) = ["Patch"]) ∧
    ((Delete (answering ⟨200, "200 OK", ⟨"1", none⟩⟩) []
      "http://nb/x/" "tok" ()).sent.map (fun r => r.Method) = ["Delete"]) ∧
    "Patch" ≠ "PATCH" ∧ "Delete" ≠ "DELETE" := by
  refine ⟨?_, ?_, ?_, ?_, ?_, ?_, ?_, ?_⟩ <;> decide

/-- Every request that `PatchResources`, `PatchResource` and `Delete` hand to the transport,
for any payload, URL, token and network, carries the method `Patch`, `Patch` and `Delete`. -/
theorem mutating_methods_verbatim {P T : Type} [Inhabited T] (E : Env P)
    (unmarshalMany : String → List T × Option GoError) (unmarshal : String → T × Option GoError)
    (unmarshalDetail : String → DetailNotFound × Option GoError)
    (url nautobotToken : String) (data : P) :
    (∀ r ∈ (PatchResources E unmarshalMany [] url nautobotToken data).sent,
      r.Method = "Patch") ∧
    (∀ r ∈ (PatchResource E unmarshal unmarshalDetail [] url nautobotToken data).sent,
      r.Method = "Patch") ∧
    (∀ r ∈ (Delete E [] url nautobotToken data).sent, r.Method = "Delete") := by
  refine ⟨?_, ?_, ?_⟩
  · intro r hr
    unfold PatchResources at hr
    dsimp only at hr
    split at hr
    · simp at hr
    · split at hr
      · simp at hr
      · rename_i hq
        have hmeth := newRequest_method E _ _ _ _ (by decide) hq
        repeat' split at hr
        all_goals (simp at hr; subst hr; exact hmeth)
  · intro r hr
    unfold PatchResource at hr
    dsimp only at hr
    split at hr
    · simp at hr
    · split at hr
      · simp at hr
      · rename_i hq
        have hmeth := newRequest_method E _ _ _ _ (by decide) hq
        repeat' split at hr
        all_goals (simp at hr; subst hr; exact hmeth)
  · intro r hr
    unfold Delete at hr
    dsimp only at hr
    split at hr
    · simp at hr
    · split at hr
      · simp at hr
      · rename_i hq
        have hmeth := newRequest_method E _ _ _ _ (by decide) hq
        repeat' split at hr
        all_goals (simp at hr; subst hr; exact hmeth)

/-! ## Query parameters of the collection accessors -/

theorem digitChar_facts : ∀ d, d < 10 →
    (Nat.digitChar d).isDigit = true ∧ digitValue (Nat.digitChar d) = d ∧
    (Nat.digitChar d ≠ '-') ∧ (d ≠ 0 → Nat.digitChar d ≠ '0') := by
  decide

theorem readDigits_append (l : List Char) (c : Char) :
    readDigits (l ++ [c]) = 10 * readDigits l + digitValue c := by
  simp [readDigits, List.foldl_append]

theorem toDigitsCore_spec (fuel : Nat) : ∀ (n : Nat) (ds : List Char), n < fuel →
    ∃ L, Nat.toDigitsCore 10 fuel n ds = L ++ ds ∧ L ≠ [] ∧ (∀ c ∈ L, c.isDigit = true) ∧
      readDigits L = n ∧ (L.head? ≠ some '-') ∧ (n ≠ 0 → L.head? ≠ some '0') ∧
      (n = 0 → L.length = 1) := by
  induction fuel with
  | zero => intro n ds h; omega
  | succ fuel ih =>
    intro n ds h
    have hd := digitChar_facts (n % 10) (Nat.mod_lt _ (by decide))
    unfold Nat.toDigitsCore
    by_cases h0 : n / 10 = 0
    · simp only [h0, if_true]
      have hlt : n < 10 := by omega
      have hmod : n % 10 = n := Nat.mod_eq_of_lt hlt
      rw [hmod] at hd ⊢
      refine ⟨[Nat.digitChar n], rfl, by simp, ?_, ?_, ?_, ?_, ?_⟩
      · intro c hc
        simp only [List.mem_singleton] at hc
        rw [hc]; exact hd.1
      · simp [readDigits, hd.2.1]
      · simp [hd.2.2.1]
      · intro hn
        simp [hd.2.2.2 hn]
      · intro _; rfl
    · simp only [h0, if_false]
      have hlt : n / 10 < fuel := by omega
      obtain ⟨L, hL, hne, hdig, hval, hminus, hzero, _⟩ := ih (n / 10) (Nat.digitChar (n % 10) :: ds) hlt
      refine ⟨L ++ [Nat.digitChar (n % 10)], ?_, by simp, ?_, ?_, ?_, ?_, ?_⟩
      · rw [hL]; simp
      · intro c hc
        rcases List.mem_append.1 hc with hc | hc
        · exact hdig c hc
        · simp only [List.mem_singleton] at hc
          rw [hc]; exact hd.1
      · rw [readDigits_append, hval, hd.2.1]
        omega
      · cases L with
        | nil => exact absurd rfl hne
        | cons x xs => simpa using hminus
      · intro _
        cases L with
        | nil => exact absurd rfl hne
        | cons x xs => simpa using hzero h0
      · intro hn
        omega

theorem repr_spec (n : Nat) :
    isNumeral (Nat.repr n).data = true ∧ readDigits (Nat.repr n).data = n ∧
      (Nat.repr n).data.head? ≠ some '-' := by
  obtain ⟨L, hL, hne, hdig, hval, hminus, hzero, hlen⟩ := toDigitsCore_spec (n + 1) n [] (by omega)
  have hdata : (Nat.repr n).data = L := by
    simp [Nat.repr, Nat.toDigits, hL, List.asString]
  rw [hdata]
  refine ⟨?_, hval, hminus⟩
  unfold isNumeral
  have h1 : L.isEmpty = false := by
    cases L with
    | nil => exact absurd rfl hne
    | cons x xs => rfl
  have h2 : L.all Char.isDigit = true := by
    simpa [List.all_eq_true] using hdig
  have h3 : (L.head? != some '0' || L.length == 1) = true := by
    by_cases hn : n = 0
    · simp [hlen hn]
    · simp [hzero hn]
  simp [h1, h2, h3]

theorem readDecimal_Itoa (n : Int) : readDecimal (Itoa n) = some n := by
  cases n with
  | ofNat m =>
    obtain ⟨hnum, hval, hminus⟩ := repr_spec m
    unfold readDecimal Itoa
    dsimp only
    split
    · rename_i cs hcs
      rw [hcs] at hminus
      simp at hminus
    · simp [hnum, hval]
  | negSucc m =>
    obtain ⟨hnum, hval, hminus⟩ := repr_spec (m + 1)
    unfold readDecimal Itoa
    have hdata : ("-" ++ Nat.repr (m + 1)).data = '-' :: (Nat.repr (m + 1)).data := by
      simp [String.data_append]
    dsimp only
    rw [hdata]
    simp only [hnum, hval]
    simp [Int.negSucc_eq]

theorem params_cons (k : String) (vs : List String) (rest : Values) :
    Values.params ((k, vs) :: rest) = vs.map (fun value => (k, value)) ++ Values.params rest := by
  simp [Values.params]

theorem params_Add (v : Values) (key value : String) :
    List.Perm (Values.params (Values.Add v key value)) (Values.params v ++ [(key, value)]) := by
  induction v with
  | nil => simp [Values.Add, Values.params]
  | cons kv rest ih =>
    obtain ⟨k, vs⟩ := kv
    unfold Values.Add
    split
    · rename_i hk
      subst hk
      rw [params_cons, params_cons, List.map_append, List.append_assoc, List.append_assoc]
      exact List.Perm.append_left _ List.perm_append_comm
    · rw [params_cons, params_cons, List.append_assoc]
      exact List.Perm.append_left _ ih

theorem Add_ne_nil (v : Values) (key value : String) : Values.Add v key value ≠ [] := by
  cases v with
  | nil => simp [Values.Add]
  | cons kv rest =>
    obtain ⟨k, vs⟩ := kv
    unfold Values.Add
    split <;> simp

theorem addFilter_eq (v : Values) (f : OptionalFilter) :
    addFilter v f =
      match filterParam f with
      | some kv => Values.Add v kv.1 kv.2
      | none => v := by
  obtain ⟨field, value⟩ := f
  cases value <;> rfl

theorem foldl_addFilter_params (filters : List OptionalFilter) (v : Values) :
    List.Perm (Values.params (filters.foldl addFilter v))
      (Values.params v ++ filters.filterMap filterParam) := by
  induction filters generalizing v with
  | nil => simp
  | cons f rest ih =>
    simp only [List.foldl_cons]
    refine (ih (addFilter v f)).trans ?_
    rw [addFilter_eq]
    cases hf : filterParam f with
    | none => simp [List.filterMap_cons, hf]
    | some kv =>
      simp only [List.filterMap_cons, hf]
      have h := params_Add v kv.1 kv.2
      have h2 := List.Perm.append_right (List.filterMap filterParam rest) h
      simpa [List.append_assoc] using h2

theorem foldl_addFilter_ne_nil (filters : List OptionalFilter) (v : Values) (hv : v ≠ []) :
    filters.foldl addFilter v ≠ [] := by
  induction filters generalizing v with
  | nil => simpa using hv
  | cons f rest ih =>
    simp only [List.foldl_cons]
    apply ih
    rw [addFilter_eq]
    cases filterParam f with
    | none => exact hv
    | some kv => exact Add_ne_nil _ _ _

theorem filterValues_eq_nil_iff (filters : List OptionalFilter) :
    filterValues filters = [] ↔ filters.filterMap filterParam = [] := by
  unfold filterValues
  induction filters with
  | nil => simp
  | cons f rest ih =>
    simp only [List.foldl_cons, List.filterMap_cons]
    rw [addFilter_eq]
    cases hf : filterParam f with
    | none => simpa using ih
    | some kv =>
      simp only [reduceCtorEq, iff_false]
      exact foldl_addFilter_ne_nil rest _ (Add_ne_nil _ _ _)

/-- C5, as the code has it: the query parameters built from a filter list are, up to order,
exactly one parameter per entry whose value has the dynamic type `string` or `int` (the string
as it is, the `int` as the text that reads back as that integer in base 10) and none for an
entry of any other type, the other integer types included; the first URL of `GetSites` and of
`GetInterfacesStatus` is `base/endpoint/` when no parameter was produced, in particular for the
empty filter list, and `base/endpoint/?query` otherwise. -/
theorem filter_query_parameters {P R : Type} (a : Accessor) (E : Env P)
    (encode : Values → String) (decodeEnvelope : Body → successResponse × Option GoError)
    (decodePage : String → List (Option R) × Option GoError)
    (fuel : Nat) (c : Client) (filters : List OptionalFilter) :
    List.Perm (Values.params (filterValues filters)) (filters.filterMap filterParam) ∧
    (∀ f s, f.Value = .string s → filterParam f = some (f.Field, s)) ∧
    (∀ f n, f.Value = .int n →
      ∃ text, filterParam f = some (f.Field, text) ∧ readDecimal text = some n) ∧
    (∀ f, (∀ s, f.Value ≠ .string s) → (∀ n, f.Value ≠ .int n) → filterParam f = none) ∧
    Values.params (filterValues [⟨"name", .string "ams 1"⟩, ⟨"asn", .int 65001⟩,
      ⟨"asn", .int64 7⟩, ⟨"up", .other "true"⟩, ⟨"asn", .int (-3)⟩, ⟨"tenant", .nil⟩]) =
        [("name", "ams 1"), ("asn", "65001"), ("asn", "-3")] ∧
    firstLink encode c.BaseURL a.endpoint filters =
      (if filters.filterMap filterParam = [] then c.BaseURL ++ "/" ++ a.endpoint ++ "/"
       else c.BaseURL ++ "/" ++ a.endpoint ++ "/" ++ "?" ++ encode (filterValues filters)) ∧
    firstLink encode c.BaseURL a.endpoint [] = c.BaseURL ++ "/" ++ a.endpoint ++ "/" ∧
    (a.call E encode decodeEnvelope decodePage fuel c filters).sent =
      (pageLoop E decodeEnvelope decodePage c.nautobotToken fuel false
        (firstLink encode c.BaseURL a.endpoint filters) [] []).sent := by
  refine ⟨?_, ?_, ?_, ?_, by decide, ?_, ?_, ?_⟩
  · have h := foldl_addFilter_params filters []
    simpa [filterValues, Values.params] using h
  · intro f s hf
    simp [filterParam, hf]
  · intro f n hf
    exact ⟨Itoa n, by simp [filterParam, hf], readDecimal_Itoa n⟩
  · intro f hs hn
    unfold filterParam
    split
    · rename_i s h
      exact absurd h (hs s)
    · rename_i n h
      exact absurd h (hn n)
    · rfl
  · unfold firstLink
    by_cases hp : filters.filterMap filterParam = []
    · have hv := (filterValues_eq_nil_iff filters).2 hp
      simp [hp, hv]
    · have hv : filterValues filters ≠ [] := fun h => hp ((filterValues_eq_nil_iff filters).1 h)
      simp [hp, hv]
  · simp [firstLink, filterValues]
  · rw [call_eq_getAll, getAll_sent]

/-- C5 as worded fails: a filter entry whose value is the integer `int64(7)` produces no query
parameter, so the parameters are not one per entry with a string or integer value, and the
first URL carries no query although the list holds an integer entry. -/
theorem filter_int64_dropped :
    filterParamAnyInteger ⟨"asn", .int64 7⟩ = some ("asn", "7") ∧
    filterValues [⟨"asn", .int64 7⟩] = [] ∧
    ¬ List.Perm (Values.params (filterValues [⟨"asn", .int64 7⟩]))
      ([⟨"asn", .int64 7⟩].filterMap filterParamAnyInteger) ∧
    firstLink (fun _ => "asn=7") "http://nb" SitesEndpoint [⟨"asn", .int64 7⟩] =
      "http://nb/api/dcim/sites/" ∧
    firstLink (fun _ => "asn=7") "http://nb" InterfacesStatusEndpoint [⟨"asn", .int64 7⟩] =
      "http://nb/api/plugins/interfaces-telemetry/interfaces-status/" := by
  refine ⟨by decide, by decide, ?_, by decide, by decide⟩
  have h1 : Values.params (filterValues [⟨"asn", .int64 7⟩]) = [] := by decide
  have h2 : [(⟨"asn", .int64 7⟩ : OptionalFilter)].filterMap filterParamAnyInteger =
      [("asn", "7")] := by decide
  rw [h1, h2]
  intro h
  have := h.length_eq
  simp at this

/-! ## The pagination driver -/

theorem getResources_sent_of_ok {P : Type} (E : Env P)
    (decodeEnvelope : Body → successResponse × Option GoError)
    (sent : List Request) (url nautobotToken : String)
    (h : (GetResources E decodeEnvelope sent url nautobotToken).err = none) :
    (GetResources E decodeEnvelope sent url nautobotToken).sent =
      sent ++ [getRequest url nautobotToken] := by
  cases hp : E.parseURL url with
  | some e =>
    simp [GetResources, NewRequestWithContext, validMethod_GET, hp] at h
  | none =>
    unfold GetResources at h ⊢
    rw [newRequest_GET E url none hp] at h ⊢
    dsimp only at h ⊢
    repeat' split
    all_goals rfl

theorem pageLoop_step {P R : Type} (E : Env P)
    (decodeEnvelope : Body → successResponse × Option GoError)
    (decodePage : String → List (Option R) × Option GoError) (nautobotToken : String)
    (fuel : Nat) (acc : List (Option R)) (sent : List Request) (p : Page R)
    (h : Fetched E decodeEnvelope decodePage nautobotToken sent p) :
    pageLoop E decodeEnvelope decodePage nautobotToken (fuel + 1) false p.url acc sent =
      pageLoop E decodeEnvelope decodePage nautobotToken fuel p.response.isLastPage
        (Sprint p.response.Next) (acc ++ p.items) (sent ++ [getRequest p.url nautobotToken]) := by
  obtain ⟨herr, hval, hdec⟩ := h
  have hsent := getResources_sent_of_ok E decodeEnvelope sent p.url nautobotToken herr
  rw [pageLoop]
  simp only [Bool.false_eq_true, if_false, herr, hval, hdec, hsent]

theorem pageLoop_chain {P R : Type} (E : Env P)
    (decodeEnvelope : Body → successResponse × Option GoError)
    (decodePage : String → List (Option R) × Option GoError) (nautobotToken : String)
    (pages : List (Page R)) (first final : String) (fuel : Nat) (acc : List (Option R))
    (sent : List Request)
    (hserved : Served E decodeEnvelope decodePage nautobotToken sent pages)
    (hchain : Chain first pages final) :
    pageLoop E decodeEnvelope decodePage nautobotToken (pages.length + fuel) false first acc sent =
      pageLoop E decodeEnvelope decodePage nautobotToken fuel false final
        (acc ++ pages.flatMap (fun p => p.items))
        (sent ++ pages.map (fun p => getRequest p.url nautobotToken)) := by
  induction pages generalizing first acc sent with
  | nil =>
    simp only [Chain] at hchain
    simp [hchain]
  | cons p rest ih =>
    obtain ⟨hfetched, hrest⟩ := hserved
    obtain ⟨hurl, next, hnext, hchain2⟩ := hchain
    have hstep := pageLoop_step E decodeEnvelope decodePage nautobotToken (rest.length + fuel)
      acc sent p hfetched
    have hlen : (p :: rest).length + fuel = (rest.length + fuel) + 1 := by
      simp only [List.length_cons]
      omega
    rw [hlen, ← hurl, hstep]
    have hlast : p.response.isLastPage = false := by
      simp [successResponse.isLastPage, hnext]
    rw [hlast, hnext]
    simp only [Sprint]
    rw [ih next (acc ++ p.items) (sent ++ [getRequest p.url nautobotToken]) hrest hchain2]
    simp [List.flatMap_cons, List.append_assoc]

theorem served_append {P R : Type} (E : Env P)
    (decodeEnvelope : Body → successResponse × Option GoError)
    (decodePage : String → List (Option R) × Option GoError) (nautobotToken : String)
    (init rest : List (Page R)) (sent : List Request) :
    Served E decodeEnvelope decodePage nautobotToken sent (init ++ rest) ↔
      Served E decodeEnvelope decodePage nautobotToken sent init ∧
      Served E decodeEnvelope decodePage nautobotToken
        (sent ++ init.map (fun p => getRequest p.url nautobotToken)) rest := by
  induction init generalizing sent with
  | nil => simp [Served]
  | cons p more ih =>
    show (Fetched E decodeEnvelope decodePage nautobotToken sent p ∧
      Served E decodeEnvelope decodePage nautobotToken
        (sent ++ [getRequest p.url nautobotToken]) (more ++ rest)) ↔ _
    rw [ih]
    simp [Served, and_assoc, List.append_assoc]

theorem pageLoop_complete {P R : Type} (E : Env P)
    (decodeEnvelope : Body → successResponse × Option GoError)
    (decodePage : String → List (Option R) × Option GoError) (nautobotToken : String)
    (init : List (Page R)) (last : Page R) (first : String) (fuel : Nat)
    (hserved : Served E decodeEnvelope decodePage nautobotToken [] (init ++ [last]))
    (hchain : Chain first init last.url)
    (hlast : ∀ s, last.response.Next ≠ .string s)
    (hfuel : (init ++ [last]).length < fuel) :
    pageLoop E decodeEnvelope decodePage nautobotToken fuel false first [] [] =
      ⟨.returned ((init ++ [last]).flatMap (fun p => p.items), none),
        (init ++ [last]).map (fun p => getRequest p.url nautobotToken)⟩ := by
  obtain ⟨hinit, hfin⟩ := (served_append E decodeEnvelope decodePage nautobotToken init [last] []).1
    hserved
  simp only [List.length_append, List.length_singleton] at hfuel
  obtain ⟨m, rfl⟩ : ∃ m, fuel = init.length + (m + 1 + 1) := ⟨fuel - init.length - 2, by omega⟩
  rw [pageLoop_chain E decodeEnvelope decodePage nautobotToken init first last.url (m + 1 + 1)
    [] [] hinit hchain]
  rw [pageLoop_step E decodeEnvelope decodePage nautobotToken (m + 1) _ _ last hfin.1]
  have hl : last.response.isLastPage = true := by
    unfold successResponse.isLastPage
    split
    · rename_i s hs
      exact absurd hs (hlast s)
    · rfl
  rw [hl, pageLoop]
  simp [List.flatMap_append]

theorem toValues_some {R : Type} (l out : List R) :
    toValues (l.map some) out = .returned (out ++ l) := by
  induction l generalizing out with
  | nil => simp [toValues]
  | cons x rest ih =>
    simp only [List.map_cons, toValues]
    rw [ih]
    simp

theorem chain_urls {R : Type} (init : List (Page R)) (last : Page R) (first : String)
    (hchain : Chain first init last.url) :
    (init ++ [last]).map (fun p => p.url) =
      first :: init.map (fun p => Sprint p.response.Next) := by
  induction init generalizing first with
  | nil =>
    simp only [Chain] at hchain
    simp [hchain]
  | cons p rest ih =>
    obtain ⟨hurl, next, hnext, hchain2⟩ := hchain
    have h := ih next hchain2
    simp only [List.cons_append, List.map_cons, h, hurl, hnext, Sprint]

theorem pageLoop_fail {P R : Type} (E : Env P)
    (decodeEnvelope : Body → successResponse × Option GoError)
    (decodePage : String → List (Option R) × Option GoError) (nautobotToken : String)
    (fuel : Nat) (acc : List (Option R)) (sent : List Request) (url : String) (e : GoError)
    (hfail :
      (GetResources E decodeEnvelope sent url nautobotToken).err = some e ∨
      ((GetResources E decodeEnvelope sent url nautobotToken).err = none ∧
       (decodePage (GetResources E decodeEnvelope sent url nautobotToken).value.Results).2 =
        some e)) :
    (pageLoop E decodeEnvelope decodePage nautobotToken (fuel + 1) false url acc sent).outcome =
      .returned ([], some e) := by
  rw [pageLoop]
  simp only [Bool.false_eq_true, if_false]
  rcases hfail with herr | ⟨hok, hdec⟩
  · simp only [herr]
  · simp only [hok]
    generalize decodePage (GetResources E decodeEnvelope sent url nautobotToken).value.Results = d
      at hdec ⊢
    obtain ⟨items, err⟩ := d
    simp only at hdec
    subst hdec
    rfl

theorem getAll_of_loop_error {P R : Type} (E : Env P) (encode : Values → String)
    (decodeEnvelope : Body → successResponse × Option GoError)
    (decodePage : String → List (Option R) × Option GoError)
    (endpoint : String) (fuel : Nat) (c : Client) (filterOtions : List OptionalFilter)
    (ptrs : List (Option R)) (e : GoError)
    (h : (pageLoop E decodeEnvelope decodePage c.nautobotToken fuel false
      (firstLink encode c.BaseURL endpoint filterOtions) [] []).outcome =
        .returned (ptrs, some e)) :
    (getAll E encode decodeEnvelope decodePage endpoint fuel c filterOtions).outcome =
      .returned ([], some e) := by
  unfold getAll
  dsimp only
  rw [h]

/-- The records of a complete chain of pages without null elements are returned in page
order: the positive half of the pagination contract. -/
theorem pagination_concat_of_records {P R : Type} (a : Accessor) (E : Env P)
    (encode : Values → String) (decodeEnvelope : Body → successResponse × Option GoError)
    (decodePage : String → List (Option R) × Option GoError)
    (c : Client) (filterOtions : List OptionalFilter)
    (init : List (Page R)) (last : Page R) (records : List R) (fuel : Nat)
    (hserved : Served E decodeEnvelope decodePage c.nautobotToken [] (init ++ [last]))
    (hchain : Chain (firstLink encode c.BaseURL a.endpoint filterOtions) init last.url)
    (hlast : ∀ s, last.response.Next ≠ .string s)
    (hrecords : (init ++ [last]).flatMap (fun p => p.items) = records.map some)
    (hfuel : (init ++ [last]).length < fuel) :
    (a.call E encode decodeEnvelope decodePage fuel c filterOtions).outcome =
      .returned (records, none) := by
  rw [call_eq_getAll]
  unfold getAll
  dsimp only
  rw [pageLoop_complete E decodeEnvelope decodePage c.nautobotToken init last _ fuel hserved
    hchain hlast hfuel]
  dsimp only
  rw [hrecords, toValues_some]
  simp

/-- C2: `isLastPage` is true exactly when `next` is not a string; and when the pages of a chain
are fetched and decoded, the driver of `GetSites` and `GetInterfacesStatus` stops after one GET
request per page: the first to the URL the caller built, each further one to the `next` string
of the page before it, and none after the first page whose `next` is not a string. -/
theorem pagination_requests {P R : Type} (a : Accessor) (E : Env P)
    (encode : Values → String) (decodeEnvelope : Body → successResponse × Option GoError)
    (decodePage : String → List (Option R) × Option GoError)
    (c : Client) (filterOtions : List OptionalFilter)
    (init : List (Page R)) (last : Page R) (fuel : Nat)
    (hserved : Served E decodeEnvelope decodePage c.nautobotToken [] (init ++ [last]))
    (hchain : Chain (firstLink encode c.BaseURL a.endpoint filterOtions) init last.url)
    (hlast : ∀ s, last.response.Next ≠ .string s)
    (hfuel : (init ++ [last]).length < fuel) :
    (∀ r : successResponse, r.isLastPage = true ↔ ∀ s, r.Next ≠ .string s) ∧
    (a.call E encode decodeEnvelope decodePage fuel c filterOtions).outcome ≠ .running ∧
    (a.call E encode decodeEnvelope decodePage fuel c filterOtions).sent =
      (init ++ [last]).map (fun p => getRequest p.url c.nautobotToken) ∧
    (a.call E encode decodeEnvelope decodePage fuel c filterOtions).sent.length =
      init.length + 1 ∧
    (a.call E encode decodeEnvelope decodePage fuel c filterOtions).sent.map (fun r => r.URL) =
      firstLink encode c.BaseURL a.endpoint filterOtions ::
        init.map (fun p => Sprint p.response.Next) ∧
    ∀ r ∈ (a.call E encode decodeEnvelope decodePage fuel c filterOtions).sent,
      r.Method = "GET" := by
  have hloop := pageLoop_complete E decodeEnvelope decodePage c.nautobotToken init last _ fuel
    hserved hchain hlast hfuel
  have hsent : (a.call E encode decodeEnvelope decodePage fuel c filterOtions).sent =
      (init ++ [last]).map (fun p => getRequest p.url c.nautobotToken) := by
    rw [call_eq_getAll, getAll_sent, hloop]
  refine ⟨?_, ?_, hsent, ?_, ?_, ?_⟩
  · intro r
    unfold successResponse.isLastPage
    cases r.Next <;> simp
  · rw [call_eq_getAll]
    unfold getAll
    dsimp only
    rw [hloop]
    dsimp only
    split <;> simp
  · rw [hsent]
    simp
  · rw [hsent, ← chain_urls init last _ hchain, List.map_map]
    rfl
  · intro r hr
    rw [hsent] at hr
    obtain ⟨p, _, rfl⟩ := List.mem_map.1 hr
    rfl

/-- C3: when a chain of pages is fetched and decoded and the next fetch fails, or its `results`
fragment fails to decode, `GetSites` and `GetInterfacesStatus` return the nil slice together
with that error, however many pages came before. -/
theorem pagination_all_or_nothing {P R : Type} (a : Accessor) (E : Env P)
    (encode : Values → String) (decodeEnvelope : Body → successResponse × Option GoError)
    (decodePage : String → List (Option R) × Option GoError)
    (c : Client) (filterOtions : List OptionalFilter)
    (pages : List (Page R)) (url : String) (e : GoError) (fuel : Nat)
    (hserved : Served E decodeEnvelope decodePage c.nautobotToken [] pages)
    (hchain : Chain (firstLink encode c.BaseURL a.endpoint filterOtions) pages url)
    (hfail :
      (GetResources E decodeEnvelope (pages.map (fun p => getRequest p.url c.nautobotToken)) url
        c.nautobotToken).err = some e ∨
      ((GetResources E decodeEnvelope (pages.map (fun p => getRequest p.url c.nautobotToken)) url
        c.nautobotToken).err = none ∧
       (decodePage (GetResources E decodeEnvelope
        (pages.map (fun p => getRequest p.url c.nautobotToken)) url
        c.nautobotToken).value.Results).2 = some e))
    (hfuel : pages.length < fuel) :
    (a.call E encode decodeEnvelope decodePage fuel c filterOtions).outcome =
      .returned ([], some e) := by
  obtain ⟨m, rfl⟩ : ∃ m, fuel = pages.length + (m + 1) := ⟨fuel - pages.length - 1, by omega⟩
  rw [call_eq_getAll]
  apply getAll_of_loop_error
  rw [pageLoop_chain E decodeEnvelope decodePage c.nautobotToken pages _ url (m + 1) [] []
    hserved hchain]
  exact pageLoop_fail E decodeEnvelope decodePage c.nautobotToken m _ _ url e
    (by simpa using hfail)

/-- Witness of C2: two pages, the first with a cursor to `http://nb/page2`. -/
theorem pagination_requests_witness :
    Served (twoPageNet bodyFirst ⟨200, "200 OK", ⟨bodyLast, none⟩⟩) envelopeOf recordsOf
      exampleClient.nautobotToken [] ([pageFirst] ++ [pageLast]) ∧
    Chain (firstLink (fun _ => "") exampleClient.BaseURL Accessor.sites.endpoint [])
      [pageFirst] pageLast.url ∧
    (Accessor.sites.call (twoPageNet bodyFirst ⟨200, "200 OK", ⟨bodyLast, none⟩⟩) (fun _ => "")
      envelopeOf recordsOf 3 exampleClient []).sent.map (fun r => r.URL) =
        ["http://nb/api/dcim/sites/", "http://nb/page2"] :=
  have hserved : Served (twoPageNet bodyFirst ⟨200, "200 OK", ⟨bodyLast, none⟩⟩) envelopeOf
      recordsOf exampleClient.nautobotToken [] ([pageFirst] ++ [pageLast]) := by
    simp only [Served, Fetched, List.cons_append, List.nil_append]
    decide
  have hchain : Chain (firstLink (fun _ => "") exampleClient.BaseURL Accessor.sites.endpoint [])
      [pageFirst] pageLast.url := ⟨by decide, "http://nb/page2", by decide, rfl⟩
  ⟨hserved, hchain,
    (pagination_requests Accessor.sites (twoPageNet bodyFirst ⟨200, "200 OK", ⟨bodyLast, none⟩⟩)
      (fun _ => "") envelopeOf recordsOf exampleClient [] [pageFirst] pageLast 3 hserved hchain
      (by intro s; simp [pageLast]) (by decide)).2.2.2.2.1⟩

/-- Witness of C3: the first page is fetched and decoded, the second answers with status 500. -/
theorem pagination_all_or_nothing_witness :
    Served (twoPageNet bodyFirst ⟨500, "500 Internal Server Error", ⟨"", none⟩⟩) envelopeOf
      recordsOf exampleClient.nautobotToken [] [pageFirst] ∧
    (Accessor.sites.call (twoPageNet bodyFirst ⟨500, "500 Internal Server Error", ⟨"", none⟩⟩)
      (fun _ => "") envelopeOf recordsOf 2 exampleClient []).outcome =
        .returned ([], some (.text
          "Error while retrieving data from http://nb/page2. Status: 500 Internal Server Error")) :=
  have hserved : Served (twoPageNet bodyFirst ⟨500, "500 Internal Server Error", ⟨"", none⟩⟩)
      envelopeOf recordsOf exampleClient.nautobotToken [] [pageFirst] := by
    simp only [Served, Fetched]
    decide
  ⟨hserved,
    pagination_all_or_nothing Accessor.sites
      (twoPageNet bodyFirst ⟨500, "500 Internal Server Error", ⟨"", none⟩⟩) (fun _ => "")
      envelopeOf recordsOf exampleClient [] [pageFirst] "http://nb/page2"
      (.text "Error while retrieving data from http://nb/page2. Status: 500 Internal Server Error")
      2 hserved ⟨by decide, "http://nb/page2", by decide, rfl⟩ (Or.inl (by decide)) (by decide)⟩

/-- C1, evaluated: a chain of two pages in which every fetch succeeds and every `results`
fragment decodes, the first fragment holding a record and a JSON null; `GetSites` and
`GetInterfacesStatus` do not return the records of the pages, they abort in the final copy
loop.  The same chain without the null returns its three records in page order. -/
theorem pagination_concat_fails_on_null :
    Served (twoPageNet bodyFirstNull ⟨200, "200 OK", ⟨bodyLast, none⟩⟩) envelopeOf recordsOf
      exampleClient.nautobotToken [] ([pageFirstNull] ++ [pageLast]) ∧
    Chain (firstLink (fun _ => "") exampleClient.BaseURL SitesEndpoint [])
      [pageFirstNull] pageLast.url ∧
    (∀ s, pageLast.response.Next ≠ .string s) ∧
    (∀ fuel, (GetSites (twoPageNet bodyFirstNull ⟨200, "200 OK", ⟨bodyLast, none⟩⟩)
      (fun _ => "") envelopeOf recordsOf (fuel + 3) exampleClient []).outcome = .panicked) ∧
    (∀ fuel, (GetInterfacesStatus (twoPageNet bodyFirstNull ⟨200, "200 OK", ⟨bodyLast, none⟩⟩)
      (fun _ => "") envelopeOf recordsOf (fuel + 3) exampleClient []).outcome = .panicked) ∧
    (∀ fuel, (GetSites (twoPageNet bodyFirst ⟨200, "200 OK", ⟨bodyLast, none⟩⟩)
      (fun _ => "") envelopeOf recordsOf (fuel + 3) exampleClient []).outcome =
        .returned (["ams", "ber", "cdg"], none)) := by
  refine ⟨?_, ⟨by decide, "http://nb/page2", by decide, rfl⟩, ?_, ?_, ?_, ?_⟩
  · simp only [Served, Fetched, List.cons_append, List.nil_append]
    decide
  · intro s
    simp [pageLast]
  · intro fuel
    rfl
  · intro fuel
    rfl
  · intro fuel
    rfl

/-- C9, evaluated: a single page with status 200 whose envelope and `results` fragment decode
without error, the fragment being `[null]`; `GetSites` and `GetInterfacesStatus` neither return
a slice nor an error, they abort when the nil record pointer is read. -/
theorem null_record_panics :
    (GetResources (answering ⟨200, "200 OK", ⟨bodyNull, none⟩⟩) envelopeOf []
      "http://nb/api/dcim/sites/" "tok").err = none ∧
    recordsOf (GetResources (answering ⟨200, "200 OK", ⟨bodyNull, none⟩⟩) envelopeOf []
      "http://nb/api/dcim/sites/" "tok").value.Results = ([none], none) ∧
    (∀ fuel, (GetSites (answering ⟨200, "200 OK", ⟨bodyNull, none⟩⟩) (fun _ => "") envelopeOf
      recordsOf (fuel + 2) exampleClient []).outcome = .panicked) ∧
    (∀ fuel, (GetInterfacesStatus (answering ⟨200, "200 OK", ⟨bodyNull, none⟩⟩) (fun _ => "")
      envelopeOf recordsOf (fuel + 2) exampleClient []).outcome = .panicked) := by
  refine ⟨by decide, by decide, ?_, ?_⟩
  · intro fuel
    rfl
  · intro fuel
    rfl

end Nautobot
